import Mathlib

/-!
The tool sleepwaste: a shallow embedding of `sleepwaste.c` and `sleepwaste.cpp`.

Both programs take `TIME MEM`, obtain `MEM` megabytes, touch them, sleep `TIME`
seconds and report.  The embedding makes the effects of a run explicit: a run is
the list of `Event`s the process performs, oldest first, together with the way
the process ends (`Outcome`).

Data model assumed (LP64, as on the Linux hosts the tools run on):
`int` and `unsigned` are 32 bits, `long` and `size_t` are 64 bits.  Signed
overflow is modelled as two's complement wrap-around, which is what the
hardware does; ISO C leaves it undefined, and no positive result below relies
on a wrapped signed value.

The C library functions are modelled after glibc: `atol s` is
`strtol (s, NULL, 10)` and `atoi s` is `(int) strtol (s, NULL, 10)`.
-/

namespace Sleepwaste

/-! ## Machine integers -/

/-- Value of an `int` expression: reduction to the range `[-2^31, 2^31)`. -/
def wrapInt (x : Int) : Int := (x + 2 ^ 31) % 2 ^ 32 - 2 ^ 31

/-- Value of a `long` expression: reduction to the range `[-2^63, 2^63)`. -/
def wrapLong (x : Int) : Int := (x + 2 ^ 63) % 2 ^ 64 - 2 ^ 63

/-- Conversion to `unsigned` (32 bits). -/
def toUnsigned (x : Int) : Nat := (x % 2 ^ 32).toNat

/-- Conversion to `size_t` (64 bits). -/
def toSizeT (x : Int) : Nat := (x % 2 ^ 64).toNat

def LONG_MAX : Int := 2 ^ 63 - 1

def LONG_MIN : Int := -(2 ^ 63)

/-! ## The C library: `isspace`, `isdigit`, `strtol`, `atol`, `atoi`, `%d` -/

/-- The function `isspace` in the C locale: space, `\t`, `\n`, `\v`, `\f`, `\r`. -/
def isspace (c : Char) : Bool := c.toNat = 32 || (9 ≤ c.toNat && c.toNat ≤ 13)

def isdigit (c : Char) : Bool := 48 ≤ c.toNat && c.toNat ≤ 57

/-- The digit loop of `strtol` in base 10: consume digits while there are any. -/
def accDigits : Nat → List Char → Nat
  | acc, [] => acc
  | acc, c :: cs => if isdigit c then accDigits (acc * 10 + (c.toNat - 48)) cs else acc

/-- The call `strtol (s, NULL, 10)`: skip white space, read an optional sign, read the
digits; the value saturates at `LONG_MIN` and `LONG_MAX`; no digits give 0. -/
def strtol (s : List Char) : Int :=
  match s.dropWhile isspace with
  | [] => 0
  | c :: cs =>
    if c = '-' then max LONG_MIN (-(accDigits 0 cs : Int))
    else if c = '+' then min LONG_MAX (accDigits 0 cs : Int)
    else min LONG_MAX (accDigits 0 (c :: cs) : Int)

def atol (s : String) : Int := strtol s.toList

def atoi (s : String) : Int := wrapInt (strtol s.toList)

/-- The conversion `%d` of `printf`: an `int` in decimal. -/
def fmtInt (x : Int) : String :=
  if x < 0 then "-" ++ Nat.repr x.natAbs else Nat.repr x.toNat

/-! ## Effects, states and runs -/

/-- What a process does that can be observed from outside or matters to memory. -/
inductive Event where
  /-- A request for `bytes` bytes of heap (`malloc`, or `operator new` inside
  `vector`), and whether a block was handed out. -/
  | alloc (bytes : Nat) (ok : Bool)
  /-- The byte at `index` of the block is set to `value`. -/
  | store (index value : Nat)
  /-- A store at `index` through a null pointer or outside the block. -/
  | fault (index : Nat)
  | sleep (seconds : Nat)
  | free
  | stdout (text : String)
  | stderr (text : String)
  deriving DecidableEq, Repr

/-- How a process ends. -/
inductive Outcome where
  | exit (status : Nat)
  /-- Killed by the invalid store (SIGSEGV). -/
  | segv
  /-- Killed by `std::terminate` after an uncaught `std::bad_alloc` (SIGABRT). -/
  | abort
  deriving DecidableEq, Repr

/-- The heap block `v` points to (`none`: a null pointer, no block) and the effects so far. -/
structure State where
  block : Option (List Nat)
  trace : List Event
  deriving DecidableEq, Repr

structure Run where
  trace : List Event
  outcome : Outcome
  deriving DecidableEq, Repr

/-- The part of the system the program does not control: which requests for memory
are served, and the indeterminate bytes a fresh block holds. -/
structure Env where
  allocOk : Nat → Bool
  junk : Nat → Nat

/-- An `Env` that serves every request. -/
def roomy : Env := ⟨fun _ => true, fun i => i % 256⟩

/-- An `Env` that serves no request. -/
def exhausted : Env := ⟨fun _ => false, fun _ => 0⟩

/-- The byte at index `i` of the block, if there is a block and `i` is inside it. -/
def State.byteAt (s : State) (i : Nat) : Option Nat := s.block.bind (fun b => b.get? i)

/-- The texts written to standard output, in order. -/
def stdoutOf (t : List Event) : List String :=
  t.filterMap (fun e => match e with | Event.stdout x => some x | _ => none)

/-- The texts written to standard error, in order. -/
def stderrOf (t : List Event) : List String :=
  t.filterMap (fun e => match e with | Event.stderr x => some x | _ => none)

def isSleep : Event → Bool
  | Event.sleep _ => true
  | _ => false

/-- The assignment `v[i] = x`: `none` when `v` is null or `i` is outside the block. -/
def store (s : State) (i x : Nat) : Option State :=
  match s.block with
  | none => none
  | some b =>
    if i < b.length then some ⟨some (b.set i x), s.trace ++ [Event.store i x]⟩ else none

def sleep (seconds : Nat) (s : State) : State := ⟨s.block, s.trace ++ [Event.sleep seconds]⟩

/-- The call `free(v)`; `free(NULL)` is allowed and does nothing to memory. -/
def free (s : State) : State := ⟨none, s.trace ++ [Event.free]⟩

def print (text : String) (s : State) : State := ⟨s.block, s.trace ++ [Event.stdout text]⟩

/-! ## `sleepwaste.c` -/

namespace C

/-- How the `for` loop ends: normally with the final value of `i`, or by an invalid store. -/
inductive Fill where
  | done (i : Nat) (s : State)
  | fault (s : State)

/-- The value of `atol(argv[2])*1024*1024`, a `long`. -/
def bound (mem : String) : Int := wrapLong (wrapLong (atol mem * 1024) * 1024)

/-- The argument of `malloc`: `atol(argv[2])*1024*1024 * sizeof(char)`, a `size_t`. -/
def bytes (mem : String) : Nat := toSizeT (bound mem) * 1 % 2 ^ 64

/-- The loop `for( i=0; i<atol(argv[2])*1024*1024; i++ ) v[i] = 1;` from the state with
counter `i`.  The counter is `unsigned`, the comparison is made in `long`.  `none`: the fuel
ran out before the loop ended. -/
def fillLoop (mem : String) : Nat → Nat → State → Option Fill
  | 0, _, _ => none
  | fuel + 1, i, s =>
    if (i : Int) < bound mem then
      match store s i 1 with
      | none => some (Fill.fault ⟨s.block, s.trace ++ [Event.fault i]⟩)
      | some s1 => fillLoop mem fuel ((i + 1) % 2 ^ 32) s1
    else some (Fill.done i s)

/-- The call of `malloc`. -/
def malloc (env : Env) (n : Nat) : State :=
  ⟨if env.allocOk n then some ((List.range n).map env.junk) else none,
    [Event.alloc n (env.allocOk n)]⟩

/-- Lines 11 to 18: `malloc` and the fill loop, up to the call of `sleep`. -/
def upToSleep (env : Env) (fuel : Nat) (mem : String) : Option Fill :=
  fillLoop mem fuel 0 (malloc env (bytes mem))

/-- The function `main` of `sleepwaste.c`; `argv` includes the program name. -/
def main (env : Env) (fuel : Nat) (argv : List String) : Option Run :=
  if argv.length ≠ 3 then
    some ⟨[Event.stdout "usage: spleepwaste TIME MEM"], Outcome.exit 1⟩
  else
    match upToSleep env fuel (argv.getD 2 "") with
    | none => none
    | some (Fill.fault s) => some ⟨s.trace, Outcome.segv⟩
    | some (Fill.done i s) =>
      let s1 := sleep (toUnsigned (atoi (argv.getD 1 ""))) s
      let s2 := free s1
      let s3 := print ("slept for " ++ fmtInt (atoi (argv.getD 2 "")) ++ " s and "
        ++ fmtInt (wrapInt i) ++ " MB\n") s2
      some ⟨s3.trace, Outcome.exit 0⟩

end C

/-! ## `sleepwaste.cpp` -/

namespace Cpp

/-- The value of `unsigned mem=atoi(argv[2])*1024*1024`: the product is computed in `int`. -/
def mem (a : String) : Nat := toUnsigned (wrapInt (wrapInt (atoi a * 1024) * 1024))

/-- The value of `unsigned time = atoi(argv[1])`. -/
def time (a : String) : Nat := toUnsigned (atoi a)

/-- Value-initialisation of `n` elements of a `vector<char>` from index `i` on: each is set
to `char()`, which is 0. -/
def vectorFill : Nat → Nat → State → State
  | 0, _, s => s
  | n + 1, i, s =>
    vectorFill n (i + 1) ⟨s.block.map (fun b => b.set i 0), s.trace ++ [Event.store i 0]⟩

/-- The constructor call `vector<char>(n)`: nothing is requested for `n = 0`; otherwise
`n` bytes are requested and value-initialised, and a refused request throws
`std::bad_alloc` (`Except.error`). -/
def vector (env : Env) (n : Nat) : Except State State :=
  if n = 0 then Except.ok ⟨none, []⟩
  else if env.allocOk n then
    Except.ok (vectorFill n 0 ⟨some ((List.range n).map env.junk), [Event.alloc n true]⟩)
  else Except.error ⟨none, [Event.alloc n false]⟩

/-- Lines 13 to 16, up to the call of `sleep`. -/
def upToSleep (env : Env) (a : String) : Except State State := vector env (mem a)

/-- The function `main` of `sleepwaste.cpp`.  Nothing in `main` catches the exception, and
`exit(0)` ends the process without running the destructor of the local `v`. -/
def main (env : Env) (argv : List String) : Run :=
  if argv.length ≠ 3 then
    ⟨[Event.stderr "usage: spleepwaste TIME MEM\n"], Outcome.exit 1⟩
  else
    match upToSleep env (argv.getD 2 "") with
    | Except.error s => ⟨s.trace, Outcome.abort⟩
    | Except.ok s =>
      let s1 := sleep (time (argv.getD 1 "")) s
      let s2 := print ("slept for " ++ Nat.repr (time (argv.getD 1 "")) ++ " s and wasted "
        ++ argv.getD 2 "" ++ " MB\n") s1
      ⟨s2.trace, Outcome.exit 0⟩

end Cpp

/-! ## Auxiliary definitions for the statements -/

/-- The stores of one pass over the indices `i, i+1, ..., i+k-1` with the value `x`. -/
def storesFrom (i k x : Nat) : List Event := (List.range' i k).map (fun j => Event.store j x)

/-- The text `sleepwaste.c` prints at the end of a complete run. -/
def cSummary (a2 : String) (i : Nat) : String :=
  "slept for " ++ fmtInt (atoi a2) ++ " s and " ++ fmtInt (wrapInt i) ++ " MB\n"

/-- The text `sleepwaste.cpp` prints at the end of a complete run. -/
def cppSummary (a1 a2 : String) : String :=
  "slept for " ++ Nat.repr (Cpp.time a1) ++ " s and wasted " ++ a2 ++ " MB\n"

/-- An argument without leading decimal digits: after optional white space and an optional
sign the text ends or goes on with a character that is no digit. -/
def noLeadingDigits (a : String) : Bool :=
  match a.toList.dropWhile isspace with
  | [] => true
  | c :: cs =>
    if c = '-' ∨ c = '+' then
      match cs with
      | [] => true
      | d :: _ => !isdigit d
    else !isdigit c

/-! ## Arithmetic of the sizes -/

theorem wrapLong_of_range (x : Int) (h0 : -(2 ^ 63) ≤ x) (h1 : x < 2 ^ 63) : wrapLong x = x := by
  unfold wrapLong
  norm_num at h0 h1 ⊢
  omega

theorem wrapInt_of_range (x : Int) (h0 : -(2 ^ 31) ≤ x) (h1 : x < 2 ^ 31) : wrapInt x = x := by
  unfold wrapInt
  norm_num at h0 h1 ⊢
  omega

theorem c_bound_eq (a : String) (m : Int) (h : atol a = m) (h0 : -(2 ^ 43) ≤ m)
    (h1 : m < 2 ^ 43) : C.bound a = m * 1048576 := by
  unfold C.bound
  rw [h]
  norm_num at h0 h1
  rw [wrapLong_of_range (m * 1024) (by norm_num; omega) (by norm_num; omega)]
  rw [wrapLong_of_range (m * 1024 * 1024) (by norm_num; omega) (by norm_num; omega)]
  omega

theorem c_bytes_eq (a : String) (m : Nat) (h : atol a = (m : Int)) (h1 : m < 2 ^ 43) :
    C.bytes a = m * 1048576 := by
  unfold C.bytes
  rw [c_bound_eq a m h (by norm_num; omega) (by norm_num at h1 ⊢; omega)]
  unfold toSizeT
  norm_num at h1 ⊢
  omega

theorem atoi_of_atol (a : String) (m : Int) (h : atol a = m) (h0 : -(2 ^ 31) ≤ m)
    (h1 : m < 2 ^ 31) : atoi a = m := by
  unfold atoi
  unfold atol at h
  rw [h]
  exact wrapInt_of_range m h0 h1

theorem cpp_mem_eq (a : String) (m : Nat) (h : atoi a = (m : Int)) (h1 : m < 2048) :
    Cpp.mem a = m * 1048576 := by
  unfold Cpp.mem
  rw [h]
  rw [wrapInt_of_range ((m : Int) * 1024) (by norm_num; omega) (by norm_num; omega)]
  rw [wrapInt_of_range ((m : Int) * 1024 * 1024) (by norm_num; omega) (by norm_num; omega)]
  unfold toUnsigned
  norm_num
  omega

/-! ## Decimal texts are read back by `strtol` -/

theorem digitChar_facts (d : Nat) (h : d < 10) :
    isdigit (Nat.digitChar d) = true ∧ (Nat.digitChar d).toNat - 48 = d ∧
      isspace (Nat.digitChar d) = false ∧ Nat.digitChar d ≠ '-' ∧ Nat.digitChar d ≠ '+' := by
  interval_cases d <;> decide

theorem toDigitsCore_append (fuel : Nat) : ∀ (n : Nat) (ds : List Char),
    Nat.toDigitsCore 10 fuel n ds = Nat.toDigitsCore 10 fuel n [] ++ ds := by
  induction fuel with
  | zero => intro n ds; simp [Nat.toDigitsCore]
  | succ f ih =>
    intro n ds
    simp only [Nat.toDigitsCore]
    split
    · simp
    · rw [ih (n / 10) (Nat.digitChar (n % 10) :: ds), ih (n / 10) [Nat.digitChar (n % 10)]]
      simp

theorem accDigits_append (l r : List Char) (hl : ∀ c ∈ l, isdigit c = true) :
    ∀ acc, accDigits acc (l ++ r) = accDigits (accDigits acc l) r := by
  induction l with
  | nil => intro acc; rfl
  | cons c cs ih =>
    intro acc
    have hc : isdigit c = true := hl c (List.mem_cons_self c cs)
    simp only [List.cons_append, accDigits, hc, if_true]
    exact ih (fun x hx => hl x (List.mem_cons_of_mem c hx)) _

theorem toDigitsCore_all_digits (fuel : Nat) : ∀ (n : Nat),
    ∀ c ∈ Nat.toDigitsCore 10 fuel n [], isdigit c = true := by
  induction fuel with
  | zero => intro n c hc; simp [Nat.toDigitsCore] at hc
  | succ f ih =>
    intro n c hc
    simp only [Nat.toDigitsCore] at hc
    have hd := (digitChar_facts (n % 10) (Nat.mod_lt n (by norm_num))).1
    split at hc
    · simp only [List.mem_singleton] at hc
      rw [hc]; exact hd
    · rw [toDigitsCore_append] at hc
      simp only [List.mem_append, List.mem_singleton] at hc
      rcases hc with hc | hc
      · exact ih _ c hc
      · rw [hc]; exact hd

theorem accDigits_toDigitsCore (fuel : Nat) : ∀ (n : Nat), n < fuel →
    accDigits 0 (Nat.toDigitsCore 10 fuel n []) = n := by
  induction fuel with
  | zero => intro n h; omega
  | succ f ih =>
    intro n h
    have hf := digitChar_facts (n % 10) (Nat.mod_lt n (by norm_num))
    simp only [Nat.toDigitsCore]
    split
    · rename_i h0
      simp only [accDigits, hf.1, if_true, hf.2.1]
      omega
    · rename_i h0
      rw [toDigitsCore_append, accDigits_append _ _ (toDigitsCore_all_digits f (n / 10)),
        ih (n / 10) (by omega)]
      simp only [accDigits, hf.1, if_true, hf.2.1]
      omega

theorem isdigit_plain (c : Char) (h : isdigit c = true) :
    isspace c = false ∧ c ≠ '-' ∧ c ≠ '+' := by
  refine ⟨?_, ?_, ?_⟩
  · simp only [isdigit, Bool.and_eq_true, decide_eq_true_eq] at h
    simp only [isspace, Bool.or_eq_false_iff, Bool.and_eq_false_iff, decide_eq_false_iff_not]
    omega
  · rintro rfl
    exact absurd h (by decide)
  · rintro rfl
    exact absurd h (by decide)

theorem toDigits_ne_nil (n : Nat) : Nat.toDigits 10 n ≠ [] := by
  unfold Nat.toDigits
  simp only [Nat.toDigitsCore]
  split
  · simp
  · rw [toDigitsCore_append]
    simp

/-- The decimal text of `n` is read back as `n` by `atol`, for `n` in `long` range. -/
theorem atol_repr (n : Nat) (h : n < 2 ^ 63) : atol (Nat.repr n) = (n : Int) := by
  have hall := toDigitsCore_all_digits (n + 1) n
  have hval := accDigits_toDigitsCore (n + 1) n (by omega)
  have hne := toDigits_ne_nil n
  unfold atol strtol Nat.repr
  unfold Nat.toDigits at hne ⊢
  cases hd : Nat.toDigitsCore 10 (n + 1) n [] with
  | nil => exact absurd hd hne
  | cons c cs =>
    rw [hd] at hall hval
    have hc : isdigit c = true := hall c (List.mem_cons_self c cs)
    obtain ⟨hs, hm, hp⟩ := isdigit_plain c hc
    have hdrop : List.dropWhile isspace (c :: cs) = c :: cs := by
      simp [List.dropWhile, hs]
    simp only [List.asString, String.toList, hdrop, hm, hp, if_false, hval]
    unfold LONG_MAX
    norm_num at h ⊢
    omega

/-! ## The fill loop of `sleepwaste.c` -/

theorem fillLoop_run (a : String) (n : Nat) (hb : C.bound a = (n : Int)) (hn : n < 2 ^ 32) :
    ∀ (k i : Nat) (rest : List Nat) (tr : List Event) (fuel : Nat),
      rest.length = k → i + k = n → k < fuel →
      C.fillLoop a fuel i ⟨some (List.replicate i 1 ++ rest), tr⟩ =
        some (C.Fill.done n ⟨some (List.replicate n 1), tr ++ storesFrom i k 1⟩) := by
  intro k
  induction k with
  | zero =>
    intro i rest tr fuel hlen hik hfuel
    obtain ⟨f, rfl⟩ : ∃ f, fuel = f + 1 := ⟨fuel - 1, by omega⟩
    have hrest : rest = [] := List.length_eq_zero.mp hlen
    have hi : i = n := by omega
    subst hrest
    subst hi
    simp [C.fillLoop, hb, storesFrom]
  | succ k ih =>
    intro i rest tr fuel hlen hik hfuel
    obtain ⟨f, rfl⟩ : ∃ f, fuel = f + 1 := ⟨fuel - 1, by omega⟩
    obtain ⟨y, rest1, rfl⟩ : ∃ y rest1, rest = y :: rest1 := by
      cases rest with
      | nil => simp at hlen
      | cons y r => exact ⟨y, r, rfl⟩
    have hlen1 : rest1.length = k := by simpa using hlen
    have hlt : (i : Int) < (n : Int) := by omega
    have hmod : (i + 1) % 2 ^ 32 = i + 1 := Nat.mod_eq_of_lt (by omega)
    have hstore : store ⟨some (List.replicate i 1 ++ y :: rest1), tr⟩ i 1 =
        some ⟨some (List.replicate (i + 1) 1 ++ rest1), tr ++ [Event.store i 1]⟩ := by
      simp [store, List.replicate_succ']
    rw [C.fillLoop, hb, if_pos hlt, hstore]
    simp only [hmod]
    rw [ih (i + 1) rest1 (tr ++ [Event.store i 1]) f hlen1 (by omega) (by omega)]
    simp [storesFrom, List.range'_succ]

/-- With a bound of at least `2^32` and a block of at least `2^32` bytes the loop never
ends: the counter wraps to 0 before it can reach the bound. -/
theorem fillLoop_diverges (a : String) (hb : (2 : Int) ^ 32 ≤ C.bound a) :
    ∀ (fuel i : Nat) (s : State) (b : List Nat), s.block = some b → 2 ^ 32 ≤ b.length →
      i < 2 ^ 32 → C.fillLoop a fuel i s = none := by
  intro fuel
  induction fuel with
  | zero => intro i s b _ _ _; rfl
  | succ f ih =>
    intro i s b hs hlen hi
    have hlt : (i : Int) < C.bound a := by
      have : (i : Int) < 2 ^ 32 := by exact_mod_cast hi
      omega
    have hstore : store s i 1 = some ⟨some (b.set i 1), s.trace ++ [Event.store i 1]⟩ := by
      have : i < b.length := by omega
      simp [store, hs, this]
    rw [C.fillLoop, if_pos hlt, hstore]
    exact ih _ _ (b.set i 1) rfl (by simpa using hlen) (Nat.mod_lt _ (by norm_num))

theorem fillLoop_null (a : String) (hb : 0 < C.bound a) (fuel : Nat) (tr : List Event) :
    C.fillLoop a (fuel + 1) 0 ⟨none, tr⟩ = some (C.Fill.fault ⟨none, tr ++ [Event.fault 0]⟩) := by
  simp [C.fillLoop, hb, store]

theorem fillLoop_skip (a : String) (hb : C.bound a ≤ 0) (fuel : Nat) (s : State) :
    C.fillLoop a (fuel + 1) 0 s = some (C.Fill.done 0 s) := by
  have : ¬ ((0 : Nat) : Int) < C.bound a := by simpa using hb
  rw [C.fillLoop, if_neg this]

/-! ## Runs of `sleepwaste.c` -/

theorem c_upToSleep_ok (env : Env) (a : String) (m fuel : Nat) (h : atol a = (m : Int))
    (hm : m < 4096) (hok : env.allocOk (m * 1048576) = true) (hfuel : m * 1048576 < fuel) :
    C.upToSleep env fuel a = some (C.Fill.done (m * 1048576)
      ⟨some (List.replicate (m * 1048576) 1),
        Event.alloc (m * 1048576) true :: storesFrom 0 (m * 1048576) 1⟩) := by
  have hb : C.bound a = ((m * 1048576 : Nat) : Int) := by
    rw [c_bound_eq a m h (by norm_num; omega) (by norm_num; omega)]
    push_cast
    rfl
  have hbytes : C.bytes a = m * 1048576 := c_bytes_eq a m h (by norm_num; omega)
  have hrun := fillLoop_run a (m * 1048576) hb (by norm_num; omega) (m * 1048576) 0
    ((List.range (m * 1048576)).map env.junk) [Event.alloc (m * 1048576) true] fuel
    (by simp) (by simp) hfuel
  unfold C.upToSleep C.malloc
  rw [hbytes, hok]
  simpa using hrun

theorem c_main_ok (env : Env) (p a1 a2 : String) (m fuel : Nat) (h : atol a2 = (m : Int))
    (hm : m < 4096) (hok : env.allocOk (m * 1048576) = true) (hfuel : m * 1048576 < fuel) :
    C.main env fuel [p, a1, a2] = some
      ⟨Event.alloc (m * 1048576) true :: (storesFrom 0 (m * 1048576) 1 ++
        [Event.sleep (toUnsigned (atoi a1)), Event.free,
          Event.stdout (cSummary a2 (m * 1048576))]), Outcome.exit 0⟩ := by
  unfold C.main
  simp only [List.length_cons, List.length_nil]
  rw [if_neg (by decide)]
  have h2 : [p, a1, a2].getD 2 "" = a2 := rfl
  have h1 : [p, a1, a2].getD 1 "" = a1 := rfl
  rw [h2, h1, c_upToSleep_ok env a2 m fuel h hm hok hfuel]
  simp [sleep, free, print, cSummary]

theorem c_main_usage (env : Env) (fuel : Nat) (argv : List String) (h : argv.length ≠ 3) :
    C.main env fuel argv = some ⟨[Event.stdout "usage: spleepwaste TIME MEM"], Outcome.exit 1⟩ := by
  unfold C.main
  rw [if_pos h]

theorem c_main_null (p a1 a2 : String) (env : Env) (fuel : Nat) (hb : 0 < C.bound a2)
    (hfail : env.allocOk (C.bytes a2) = false) :
    C.main env (fuel + 1) [p, a1, a2] =
      some ⟨[Event.alloc (C.bytes a2) false, Event.fault 0], Outcome.segv⟩ := by
  unfold C.main
  simp only [List.length_cons, List.length_nil]
  rw [if_neg (by decide)]
  have h2 : [p, a1, a2].getD 2 "" = a2 := rfl
  rw [h2]
  unfold C.upToSleep C.malloc
  rw [hfail]
  simp only [Bool.false_eq_true, if_false]
  rw [fillLoop_null a2 hb]
  rfl

theorem c_main_skip (p a1 a2 : String) (env : Env) (fuel : Nat) (hb : C.bound a2 ≤ 0) :
    C.main env (fuel + 1) [p, a1, a2] =
      some ⟨[Event.alloc (C.bytes a2) (env.allocOk (C.bytes a2)),
        Event.sleep (toUnsigned (atoi a1)), Event.free,
        Event.stdout (cSummary a2 0)], Outcome.exit 0⟩ := by
  unfold C.main
  simp only [List.length_cons, List.length_nil]
  rw [if_neg (by decide)]
  have h2 : [p, a1, a2].getD 2 "" = a2 := rfl
  have h1 : [p, a1, a2].getD 1 "" = a1 := rfl
  rw [h2, h1]
  unfold C.upToSleep
  rw [fillLoop_skip a2 hb]
  simp [sleep, free, print, cSummary, C.malloc]

theorem c_main_diverges (p a1 a2 : String) (env : Env) (hb : (2 : Int) ^ 32 ≤ C.bound a2)
    (hbytes : 2 ^ 32 ≤ C.bytes a2) (hok : env.allocOk (C.bytes a2) = true) (fuel : Nat) :
    C.main env fuel [p, a1, a2] = none := by
  unfold C.main
  simp only [List.length_cons, List.length_nil]
  rw [if_neg (by decide)]
  have h2 : [p, a1, a2].getD 2 "" = a2 := rfl
  rw [h2]
  unfold C.upToSleep
  rw [fillLoop_diverges a2 hb fuel 0 (C.malloc env (C.bytes a2))
    ((List.range (C.bytes a2)).map env.junk) (by simp [C.malloc, hok]) (by simpa using hbytes)
    (by norm_num)]

/-! ## Runs of `sleepwaste.cpp` -/

theorem vectorFill_run : ∀ (k i : Nat) (rest : List Nat) (tr : List Event), rest.length = k →
    Cpp.vectorFill k i ⟨some (List.replicate i 0 ++ rest), tr⟩ =
      ⟨some (List.replicate (i + k) 0), tr ++ storesFrom i k 0⟩ := by
  intro k
  induction k with
  | zero =>
    intro i rest tr hlen
    have hrest : rest = [] := List.length_eq_zero.mp hlen
    subst hrest
    simp [Cpp.vectorFill, storesFrom]
  | succ k ih =>
    intro i rest tr hlen
    obtain ⟨y, rest1, rfl⟩ : ∃ y rest1, rest = y :: rest1 := by
      cases rest with
      | nil => simp at hlen
      | cons y r => exact ⟨y, r, rfl⟩
    have hlen1 : rest1.length = k := by simpa using hlen
    have hset : (List.replicate i 0 ++ y :: rest1).set i 0 = List.replicate (i + 1) 0 ++ rest1 := by
      simp [List.replicate_succ']
    rw [Cpp.vectorFill]
    simp only [Option.map_some', hset]
    rw [ih (i + 1) rest1 (tr ++ [Event.store i 0]) hlen1]
    simp [storesFrom, List.range'_succ, Nat.add_assoc, Nat.add_comm 1 k]

theorem cpp_vector_ok (env : Env) (n : Nat) (hn : n ≠ 0) (hok : env.allocOk n = true) :
    Cpp.vector env n =
      Except.ok ⟨some (List.replicate n 0), Event.alloc n true :: storesFrom 0 n 0⟩ := by
  unfold Cpp.vector
  rw [if_neg hn, if_pos hok]
  have := vectorFill_run n 0 ((List.range n).map env.junk) [Event.alloc n true] (by simp)
  simpa using this

theorem cpp_vector_fail (env : Env) (n : Nat) (hn : n ≠ 0) (hok : env.allocOk n = false) :
    Cpp.vector env n = Except.error ⟨none, [Event.alloc n false]⟩ := by
  unfold Cpp.vector
  rw [if_neg hn, if_neg (by simp [hok])]

theorem cpp_vector_zero (env : Env) : Cpp.vector env 0 = Except.ok ⟨none, []⟩ := by
  unfold Cpp.vector
  rw [if_pos rfl]

theorem cpp_main_usage (env : Env) (argv : List String) (h : argv.length ≠ 3) :
    Cpp.main env argv = ⟨[Event.stderr "usage: spleepwaste TIME MEM\n"], Outcome.exit 1⟩ := by
  unfold Cpp.main
  rw [if_pos h]

theorem cpp_main_ok (env : Env) (p a1 a2 : String) (hn : Cpp.mem a2 ≠ 0)
    (hok : env.allocOk (Cpp.mem a2) = true) :
    Cpp.main env [p, a1, a2] =
      ⟨Event.alloc (Cpp.mem a2) true :: (storesFrom 0 (Cpp.mem a2) 0 ++
        [Event.sleep (Cpp.time a1), Event.stdout (cppSummary a1 a2)]), Outcome.exit 0⟩ := by
  unfold Cpp.main
  simp only [List.length_cons, List.length_nil]
  rw [if_neg (by decide)]
  have h2 : [p, a1, a2].getD 2 "" = a2 := rfl
  have h1 : [p, a1, a2].getD 1 "" = a1 := rfl
  rw [h2, h1]
  unfold Cpp.upToSleep
  rw [cpp_vector_ok env _ hn hok]
  simp [sleep, print, cppSummary]

theorem cpp_main_zero (env : Env) (p a1 a2 : String) (hn : Cpp.mem a2 = 0) :
    Cpp.main env [p, a1, a2] =
      ⟨[Event.sleep (Cpp.time a1), Event.stdout (cppSummary a1 a2)], Outcome.exit 0⟩ := by
  unfold Cpp.main
  simp only [List.length_cons, List.length_nil]
  rw [if_neg (by decide)]
  have h2 : [p, a1, a2].getD 2 "" = a2 := rfl
  have h1 : [p, a1, a2].getD 1 "" = a1 := rfl
  rw [h2, h1]
  unfold Cpp.upToSleep
  rw [hn, cpp_vector_zero]
  simp [sleep, print, cppSummary]

theorem cpp_main_fail (env : Env) (p a1 a2 : String) (hn : Cpp.mem a2 ≠ 0)
    (hok : env.allocOk (Cpp.mem a2) = false) :
    Cpp.main env [p, a1, a2] = ⟨[Event.alloc (Cpp.mem a2) false], Outcome.abort⟩ := by
  unfold Cpp.main
  simp only [List.length_cons, List.length_nil]
  rw [if_neg (by decide)]
  have h2 : [p, a1, a2].getD 2 "" = a2 := rfl
  rw [h2]
  unfold Cpp.upToSleep
  rw [cpp_vector_fail env _ hn hok]

theorem accDigits_no_digit (cs : List Char) (h : ∀ d rest, cs = d :: rest → isdigit d = false) :
    accDigits 0 cs = 0 := by
  cases cs with
  | nil => rfl
  | cons d rest => simp [accDigits, h d rest rfl]

theorem strtol_noLeadingDigits (a : String) (h : noLeadingDigits a = true) :
    strtol a.toList = 0 := by
  unfold noLeadingDigits at h
  unfold strtol
  cases hd : a.toList.dropWhile isspace with
  | nil => rfl
  | cons c cs =>
    rw [hd] at h
    simp only at h ⊢
    by_cases hm : c = '-'
    · have h1 : accDigits 0 cs = 0 := by
        apply accDigits_no_digit
        intro d rest hcs
        subst hcs
        simpa [hm] using h
      simp [hm, h1, LONG_MIN]
    · by_cases hp : c = '+'
      · have h1 : accDigits 0 cs = 0 := by
          apply accDigits_no_digit
          intro d rest hcs
          subst hcs
          simpa [hp] using h
        simp [hp, h1, LONG_MAX]
      · have h1 : accDigits 0 (c :: cs) = 0 := by
          apply accDigits_no_digit
          intro d rest hcs
          cases hcs
          simpa [hm, hp] using h
        simp [hm, hp, h1, LONG_MAX]

theorem atol_noLeadingDigits (a : String) (h : noLeadingDigits a = true) : atol a = 0 :=
  strtol_noLeadingDigits a h

theorem atoi_noLeadingDigits (a : String) (h : noLeadingDigits a = true) : atoi a = 0 := by
  unfold atoi
  rw [strtol_noLeadingDigits a h]
  rfl

theorem stdoutOf_storesFrom (i k x : Nat) : stdoutOf (storesFrom i k x) = [] := by
  simp [stdoutOf, storesFrom]

theorem stderrOf_storesFrom (i k x : Nat) : stderrOf (storesFrom i k x) = [] := by
  simp [stderrOf, storesFrom]

theorem filter_isSleep_storesFrom (i k x : Nat) : (storesFrom i k x).filter isSleep = [] := by
  simp only [storesFrom, List.filter_eq_nil_iff, List.mem_map]
  rintro e ⟨j, _, rfl⟩
  simp [isSleep]

theorem free_not_mem_storesFrom (i k x : Nat) : Event.free ∉ storesFrom i k x := by
  simp [storesFrom]

theorem c_upToSleep_diverges (a : String) (env : Env) (hb : (2 : Int) ^ 32 ≤ C.bound a)
    (hbytes : 2 ^ 32 ≤ C.bytes a) (hok : env.allocOk (C.bytes a) = true) (fuel : Nat) :
    C.upToSleep env fuel a = none := by
  unfold C.upToSleep
  exact fillLoop_diverges a hb fuel 0 (C.malloc env (C.bytes a))
    ((List.range (C.bytes a)).map env.junk) (by simp [C.malloc, hok]) (by simpa using hbytes)
    (by norm_num)

/-- From `MEM = 4096` on (as long as the product fits a `long`), and with the block handed
out, the fill loop of `sleepwaste.c` does not end. -/
theorem c_upToSleep_diverges_from_4096 (env : Env) (a : String) (m : Nat)
    (h : atol a = (m : Int)) (hlo : 4096 ≤ m) (hhi : m < 2 ^ 43)
    (hok : env.allocOk (m * 1048576) = true) (fuel : Nat) :
    C.upToSleep env fuel a = none := by
  have hb : C.bound a = (m : Int) * 1048576 :=
    c_bound_eq a m h (by norm_num; omega) (by norm_num at hhi ⊢; omega)
  have hbytes : C.bytes a = m * 1048576 := c_bytes_eq a m h hhi
  exact c_upToSleep_diverges a env (by rw [hb]; norm_num; omega) (by rw [hbytes]; norm_num; omega)
    (by rw [hbytes]; exact hok) fuel

theorem cpp_mem_lt (a : String) : Cpp.mem a < 2 ^ 32 := by
  unfold Cpp.mem toUnsigned
  norm_num
  omega

theorem byteAt_replicate (n x i : Nat) (tr : List Event) (h : i < n) :
    State.byteAt ⟨some (List.replicate n x), tr⟩ i = some x := by
  simp [State.byteAt, List.getElem?_replicate, h]

/-- Given decimal texts of `t` and `m`, `sleepwaste.cpp` prints `slept for t s and wasted m MB`
and exits 0. -/
theorem cpp_summary_of_decimal (env : Env) (p : String) (t m : Nat) (ht : t < 2 ^ 31)
    (hm : m < 2048) (hok : env.allocOk (m * 1048576) = true) :
    stdoutOf (Cpp.main env [p, Nat.repr t, Nat.repr m]).trace =
      ["slept for " ++ Nat.repr t ++ " s and wasted " ++ Nat.repr m ++ " MB\n"] ∧
    (Cpp.main env [p, Nat.repr t, Nat.repr m]).outcome = Outcome.exit 0 := by
  have hi : atoi (Nat.repr m) = (m : Int) :=
    atoi_of_atol _ m (atol_repr m (by norm_num; omega)) (by norm_num; omega) (by norm_num; omega)
  have hmem : Cpp.mem (Nat.repr m) = m * 1048576 := cpp_mem_eq _ m hi hm
  have hti : atoi (Nat.repr t) = (t : Int) :=
    atoi_of_atol _ t (atol_repr t (by norm_num at ht ⊢; omega)) (by norm_num; omega)
      (by exact_mod_cast ht)
  have htime : Cpp.time (Nat.repr t) = t := by
    unfold Cpp.time toUnsigned
    rw [hti]
    norm_num at ht ⊢
    omega
  by_cases h0 : Cpp.mem (Nat.repr m) = 0
  · rw [cpp_main_zero env p _ _ h0]
    simp [stdoutOf, cppSummary, htime]
  · rw [cpp_main_ok env p _ _ h0 (by rw [hmem]; exact hok)]
    simp [stdoutOf, List.filterMap_append, cppSummary, htime, storesFrom]

/-- In both programs a run that ends with exit status 1 is a run with `argc != 3`, and
every run with `argc != 3` ends so. -/
theorem exit_one_iff_argc (env : Env) (fuel : Nat) (argv : List String) :
    (∀ r, C.main env fuel argv = some r → (r.outcome = Outcome.exit 1 ↔ argv.length ≠ 3)) ∧
    ((Cpp.main env argv).outcome = Outcome.exit 1 ↔ argv.length ≠ 3) := by
  constructor
  · intro r hr
    by_cases h : argv.length ≠ 3
    · rw [c_main_usage env fuel argv h] at hr
      cases hr
      simp [h]
    · unfold C.main at hr
      rw [if_neg h] at hr
      simp only [h, iff_false]
      split at hr
      · cases hr
      · cases hr; simp
      · cases hr; simp [print]
  · by_cases h : argv.length ≠ 3
    · rw [cpp_main_usage env argv h]
      simp [h]
    · unfold Cpp.main
      rw [if_neg h]
      simp only [h, iff_false]
      split <;> simp [print]

/-! ## The claims -/

/-- C1, at the input `sleepwaste 0 4096` with every allocation served: `sleepwaste.c` is
given exactly two arguments and its allocation succeeds, yet no amount of fuel lets `main`
reach an exit status, so the run does not exit with status 0. -/
theorem c1_two_args_no_exit_status :
    ∀ fuel : Nat, C.main roomy fuel ["sleepwaste", "0", "4096"] = none := by
  intro fuel
  exact c_main_diverges "sleepwaste" "0" "4096" roomy (by rfl) (by rfl) rfl fuel

/-- C2, at the input `sleepwaste 2 10` with every allocation served: `sleepwaste.c` writes
the one line `slept for 10 s and 10485760 MB` to standard output and exits 0; the line names
the second argument as the seconds and the byte count as the megabytes.  On the same input
`sleepwaste.cpp` writes `slept for 2 s and wasted 10 MB`. -/
theorem c2_c_summary_line :
    (∀ fuel : Nat, (C.main roomy (fuel + 10485761) ["sleepwaste", "2", "10"]).map
      (fun r => (stdoutOf r.trace, r.outcome)) =
        some (["slept for 10 s and 10485760 MB\n"], Outcome.exit 0)) ∧
    stdoutOf (Cpp.main roomy ["sleepwaste", "2", "10"]).trace =
      ["slept for 2 s and wasted 10 MB\n"] := by
  constructor
  · intro fuel
    rw [c_main_ok roomy "sleepwaste" "2" "10" 10 (fuel + 10485761) (by rfl) (by norm_num) rfl
      (by omega)]
    have hs : cSummary "10" (10 * 1048576) = "slept for 10 s and 10485760 MB\n" := by rfl
    simp [stdoutOf, List.filterMap_append, hs, storesFrom]
  · have hm : Cpp.mem "10" = 10 * 1048576 := cpp_mem_eq "10" 10 (by rfl) (by norm_num)
    rw [cpp_main_ok roomy "sleepwaste" "2" "10" (by rw [hm]; norm_num) (by simp [roomy])]
    have hs : cppSummary "2" "10" = "slept for 2 s and wasted 10 MB\n" := by rfl
    simp [stdoutOf, List.filterMap_append, hs, storesFrom]

/-- C3, at the input `sleepwaste 0 4096`: in `sleepwaste.cpp` the 32-bit product
`atoi(argv[2])*1024*1024` is 0, not 4096 * 1048576 (no `unsigned` can be that large); the
run requests no memory at all and still reports 4096 MB. -/
theorem c3_cpp_size_wraps :
    Cpp.mem "4096" = 0 ∧ Cpp.mem "4096" < 4096 * 1024 * 1024 ∧
    Cpp.main roomy ["sleepwaste", "0", "4096"] =
      ⟨[Event.sleep 0, Event.stdout "slept for 0 s and wasted 4096 MB\n"], Outcome.exit 0⟩ := by
  refine ⟨by rfl, ?_, ?_⟩
  · have := cpp_mem_lt "4096"
    norm_num at this ⊢
    exact this
  · rw [cpp_main_zero roomy "sleepwaste" "0" "4096" (by rfl)]
    have hs : cppSummary "0" "4096" = "slept for 0 s and wasted 4096 MB\n" := by rfl
    have ht : Cpp.time "0" = 0 := by rfl
    rw [hs, ht]

/-- C4 as stated fails for `sleepwaste.cpp` at `MEM = 1` with the allocation served: when
the sleep begins the 1048576 bytes of the vector do not hold a common non-zero value. -/
theorem c4_cpp_fill_value_is_zero :
    ¬ ∃ x : Nat, x ≠ 0 ∧ ∃ s : State, Cpp.upToSleep roomy "1" = Except.ok s ∧
      ∀ i, i < 1 * 1048576 → s.byteAt i = some x := by
  rintro ⟨x, hx, s, hs, hall⟩
  have hm : Cpp.mem "1" = 1 * 1048576 := cpp_mem_eq "1" 1 (by rfl) (by norm_num)
  unfold Cpp.upToSleep at hs
  rw [hm, cpp_vector_ok roomy (1 * 1048576) (by omega) (by simp [roomy])] at hs
  cases hs
  have h0 := hall 0 (by norm_num)
  rw [byteAt_replicate (1 * 1048576) 0 0 _ (by norm_num)] at h0
  cases h0
  exact hx rfl

/-- C4, amended: for `MEM = m` with `m < 2048` and the allocation served, both programs reach
the call of `sleep`, and at that point every index below `m * 1048576` of the buffer holds
one fixed value: 1 in `sleepwaste.c`, 0 in `sleepwaste.cpp`. -/
theorem c4_every_byte_filled (env : Env) (a : String) (m fuel : Nat)
    (h : atol a = (m : Int)) (hm : m < 2048) (hok : env.allocOk (m * 1048576) = true)
    (hfuel : m * 1048576 < fuel) :
    (∃ i s, C.upToSleep env fuel a = some (C.Fill.done i s) ∧
      ∀ j, j < m * 1048576 → s.byteAt j = some 1) ∧
    (∃ s, Cpp.upToSleep env a = Except.ok s ∧
      ∀ j, j < m * 1048576 → s.byteAt j = some 0) := by
  constructor
  · refine ⟨_, _, c_upToSleep_ok env a m fuel h (by omega) hok hfuel, ?_⟩
    intro j hj
    exact byteAt_replicate _ _ _ _ hj
  · have hi : atoi a = (m : Int) := atoi_of_atol a m h (by norm_num; omega) (by norm_num; omega)
    have hmem : Cpp.mem a = m * 1048576 := cpp_mem_eq a m hi hm
    unfold Cpp.upToSleep
    rw [hmem]
    by_cases h0 : m * 1048576 = 0
    · rw [h0, cpp_vector_zero]
      exact ⟨_, rfl, fun j hj => absurd hj (by omega)⟩
    · rw [cpp_vector_ok env _ h0 hok]
      exact ⟨_, rfl, fun j hj => byteAt_replicate _ _ _ _ hj⟩

/-- The amended C4 at `MEM = 16` with every allocation served. -/
theorem c4_every_byte_filled_witness :
    (∃ i s, C.upToSleep roomy 16777217 "16" = some (C.Fill.done i s) ∧
      ∀ j, j < 16 * 1048576 → s.byteAt j = some 1) ∧
    (∃ s, Cpp.upToSleep roomy "16" = Except.ok s ∧
      ∀ j, j < 16 * 1048576 → s.byteAt j = some 0) :=
  c4_every_byte_filled roomy "16" 16 16777217 (by rfl) (by norm_num) rfl (by norm_num)

/-- C5, at the input `sleepwaste 5` (one argument): `sleepwaste.c` performs one effect, the
usage message written to standard output, and exits 1; nothing goes to standard error. -/
theorem c5_c_usage_on_stdout :
    ∀ (env : Env) (fuel : Nat),
      C.main env fuel ["sleepwaste", "5"] =
        some ⟨[Event.stdout "usage: spleepwaste TIME MEM"], Outcome.exit 1⟩ ∧
      stderrOf [Event.stdout "usage: spleepwaste TIME MEM"] = [] := by
  intro env fuel
  exact ⟨c_main_usage env fuel ["sleepwaste", "5"] (by decide), rfl⟩

/-- C6, at `MEM = 4096` with every allocation served: the fill loop of `sleepwaste.c` does
not end, whatever the fuel; its 32-bit counter stays below the bound `2^32`. -/
theorem c6_fill_loop_never_ends :
    ∀ fuel : Nat, C.upToSleep roomy fuel "4096" = none := by
  intro fuel
  exact c_upToSleep_diverges "4096" roomy (by rfl) (by rfl) rfl fuel

/-- C7, at the input `sleepwaste 0 1` with the allocation refused: `sleepwaste.c` goes on
to the fill loop and stores through the null pointer at index 0. -/
theorem c7_c_stores_through_null :
    ∀ fuel : Nat, C.main exhausted (fuel + 1) ["sleepwaste", "0", "1"] =
      some ⟨[Event.alloc 1048576 false, Event.fault 0], Outcome.segv⟩ := by
  intro fuel
  have hb : C.bytes "1" = 1048576 := by rfl
  have hbound : C.bound "1" = 1048576 := by rfl
  have := c_main_null "sleepwaste" "0" "1" exhausted fuel (by rw [hbound]; norm_num) rfl
  rw [hb] at this
  exact this

/-- C8 as stated fails: `sleepwaste.cpp` run as `sleepwaste 1 1` with the allocation refused
ends by the uncaught `std::bad_alloc` and never calls `sleep`. -/
theorem c8_no_sleep_when_allocation_fails :
    ¬ ((Cpp.main exhausted ["sleepwaste", "1", "1"]).trace.filter isSleep = [Event.sleep 1]) := by
  have hm : Cpp.mem "1" = 1 * 1048576 := cpp_mem_eq "1" 1 (by rfl) (by norm_num)
  rw [cpp_main_fail exhausted "sleepwaste" "1" "1" (by rw [hm]; norm_num) rfl]
  simp [isSleep]

/-- C8, amended: given exactly two arguments with `TIME = t` in `int` range and `MEM = m`
with `m < 2048`, the allocation being served whenever `m` is not 0, each program calls
`sleep` exactly once, with `t` seconds, the value of the first argument. -/
theorem c8_sleeps_once_for_time (env : Env) (p a1 a2 : String) (t m fuel : Nat)
    (ht : atoi a1 = (t : Int)) (h : atol a2 = (m : Int)) (hm : m < 2048)
    (hok : m ≠ 0 → env.allocOk (m * 1048576) = true) (hfuel : m * 1048576 < fuel) :
    (∃ r, C.main env fuel [p, a1, a2] = some r ∧ r.trace.filter isSleep = [Event.sleep t]) ∧
    (Cpp.main env [p, a1, a2]).trace.filter isSleep = [Event.sleep t] := by
  have htu : toUnsigned (atoi a1) = t := by
    have hr : (t : Int) < 2 ^ 31 ∧ -(2 ^ 31) ≤ (t : Int) := by
      rw [← ht]
      unfold atoi wrapInt
      norm_num
      omega
    rw [ht]
    unfold toUnsigned
    norm_num at hr ⊢
    omega
  have hi : atoi a2 = (m : Int) := atoi_of_atol a2 m h (by norm_num; omega) (by norm_num; omega)
  have hmem : Cpp.mem a2 = m * 1048576 := cpp_mem_eq a2 m hi hm
  have htime : Cpp.time a1 = t := htu
  by_cases h0 : m = 0
  · subst h0
    obtain ⟨f, rfl⟩ : ∃ f, fuel = f + 1 := ⟨fuel - 1, by omega⟩
    have hb : C.bound a2 = 0 := by
      rw [c_bound_eq a2 0 (by simpa using h) (by norm_num) (by norm_num)]
      norm_num
    constructor
    · refine ⟨_, c_main_skip p a1 a2 env f (by rw [hb]), ?_⟩
      simp [isSleep, htu]
    · rw [cpp_main_zero env p a1 a2 (by simpa using hmem)]
      simp [isSleep, htime]
  · have hok1 := hok h0
    constructor
    · refine ⟨_, c_main_ok env p a1 a2 m fuel h (by omega) hok1 hfuel, ?_⟩
      simp [List.filter_append, filter_isSleep_storesFrom, isSleep, htu]
    · rw [cpp_main_ok env p a1 a2 (by rw [hmem]; omega) (by rw [hmem]; exact hok1)]
      simp [List.filter_append, filter_isSleep_storesFrom, isSleep, htime]

/-- The amended C8 at `sleepwaste 2 10` with every allocation served: the sleep lasts 2
seconds, not 10. -/
theorem c8_sleeps_once_for_time_witness :
    (∃ r, C.main roomy 10485761 ["sleepwaste", "2", "10"] = some r ∧
      r.trace.filter isSleep = [Event.sleep 2]) ∧
    (Cpp.main roomy ["sleepwaste", "2", "10"]).trace.filter isSleep = [Event.sleep 2] :=
  c8_sleeps_once_for_time roomy "sleepwaste" "2" "10" 2 10 10485761 (by rfl) (by rfl)
    (by norm_num) (fun _ => rfl) (by norm_num)

/-- C9 as stated fails for `sleepwaste.cpp`: run as `sleepwaste 2 1` with the allocation
served, it releases nothing before the summary; its effects contain no release at all. -/
theorem c9_cpp_never_releases :
    ¬ (Event.free ∈ (Cpp.main roomy ["sleepwaste", "2", "1"]).trace) := by
  have hm : Cpp.mem "1" = 1 * 1048576 := cpp_mem_eq "1" 1 (by rfl) (by norm_num)
  rw [cpp_main_ok roomy "sleepwaste" "2" "1" (by rw [hm]; norm_num) (by simp [roomy])]
  simp [free_not_mem_storesFrom]

/-- C9, amended: with exactly two arguments, `MEM = m` with `m < 2048` and the allocation
served, the effects of `sleepwaste.c` are, in this order: allocate, store 1 at every index
from 0 up, sleep, free, print the summary, exit 0; those of `sleepwaste.cpp` are: allocate
(nothing is requested for size 0), store 0 at every index from 0 up, sleep, print the
summary, exit 0, the summary being printed while the vector still holds the buffer. -/
theorem c9_order_of_effects (env : Env) (p a1 a2 : String) (m fuel : Nat)
    (h : atol a2 = (m : Int)) (hm : m < 2048) (hok : env.allocOk (m * 1048576) = true)
    (hfuel : m * 1048576 < fuel) :
    C.main env fuel [p, a1, a2] = some
      ⟨[Event.alloc (m * 1048576) true] ++ storesFrom 0 (m * 1048576) 1 ++
        [Event.sleep (toUnsigned (atoi a1)), Event.free,
          Event.stdout (cSummary a2 (m * 1048576))], Outcome.exit 0⟩ ∧
    Cpp.main env [p, a1, a2] =
      ⟨(if m = 0 then [] else [Event.alloc (m * 1048576) true]) ++
        storesFrom 0 (m * 1048576) 0 ++
        [Event.sleep (Cpp.time a1), Event.stdout (cppSummary a1 a2)], Outcome.exit 0⟩ := by
  constructor
  · rw [c_main_ok env p a1 a2 m fuel h (by omega) hok hfuel]
    simp
  · have hi : atoi a2 = (m : Int) := atoi_of_atol a2 m h (by norm_num; omega) (by norm_num; omega)
    have hmem : Cpp.mem a2 = m * 1048576 := cpp_mem_eq a2 m hi hm
    by_cases h0 : m = 0
    · subst h0
      rw [cpp_main_zero env p a1 a2 (by simpa using hmem)]
      simp [storesFrom]
    · rw [cpp_main_ok env p a1 a2 (by rw [hmem]; omega) (by rw [hmem]; exact hok), hmem]
      simp [h0]

/-- The amended C9 at `sleepwaste 2 10` with every allocation served. -/
theorem c9_order_of_effects_witness :
    C.main roomy 10485761 ["sleepwaste", "2", "10"] = some
      ⟨[Event.alloc (10 * 1048576) true] ++ storesFrom 0 (10 * 1048576) 1 ++
        [Event.sleep (toUnsigned (atoi "2")), Event.free,
          Event.stdout (cSummary "10" (10 * 1048576))], Outcome.exit 0⟩ ∧
    Cpp.main roomy ["sleepwaste", "2", "10"] =
      ⟨(if 10 = 0 then [] else [Event.alloc (10 * 1048576) true]) ++
        storesFrom 0 (10 * 1048576) 0 ++
        [Event.sleep (Cpp.time "2"), Event.stdout (cppSummary "2" "10")], Outcome.exit 0⟩ :=
  c9_order_of_effects roomy "sleepwaste" "2" "10" 10 10485761 (by rfl) (by norm_num) rfl
    (by norm_num)

/-- C10: when neither argument has leading decimal digits (after optional white space and
sign), each program parses both as 0, computes a buffer size of 0 bytes, stores no byte,
sleeps 0 seconds and exits 0, writing its summary and no usage message, whether or not
`malloc(0)` hands out a block. -/
theorem c10_unparsable_is_zero (env : Env) (p a1 a2 : String) (fuel : Nat)
    (h1 : noLeadingDigits a1 = true) (h2 : noLeadingDigits a2 = true) :
    (atoi a1 = 0 ∧ atoi a2 = 0 ∧ atol a2 = 0) ∧
    C.bytes a2 = 0 ∧ Cpp.mem a2 = 0 ∧
    C.main env (fuel + 1) [p, a1, a2] = some
      ⟨[Event.alloc 0 (env.allocOk 0), Event.sleep 0, Event.free,
        Event.stdout "slept for 0 s and 0 MB\n"], Outcome.exit 0⟩ ∧
    Cpp.main env [p, a1, a2] =
      ⟨[Event.sleep 0, Event.stdout ("slept for 0 s and wasted " ++ a2 ++ " MB\n")],
        Outcome.exit 0⟩ := by
  have hi1 := atoi_noLeadingDigits a1 h1
  have hi2 := atoi_noLeadingDigits a2 h2
  have hl2 := atol_noLeadingDigits a2 h2
  have hbound : C.bound a2 = 0 := by
    unfold C.bound
    rw [hl2]
    rfl
  have hbytes : C.bytes a2 = 0 := by
    unfold C.bytes
    rw [hbound]
    rfl
  have hmem : Cpp.mem a2 = 0 := by
    unfold Cpp.mem
    rw [hi2]
    rfl
  have htime : Cpp.time a1 = 0 := by
    unfold Cpp.time
    rw [hi1]
    rfl
  refine ⟨⟨hi1, hi2, hl2⟩, hbytes, hmem, ?_, ?_⟩
  · rw [c_main_skip p a1 a2 env fuel (by rw [hbound])]
    have hs : cSummary a2 0 = "slept for 0 s and 0 MB\n" := by
      unfold cSummary
      rw [hi2]
      rfl
    have hu : toUnsigned (atoi a1) = 0 := by
      rw [hi1]
      rfl
    rw [hbytes, hs, hu]
  · rw [cpp_main_zero env p a1 a2 hmem]
    have hs : cppSummary a1 a2 = "slept for 0 s and wasted " ++ a2 ++ " MB\n" := by
      unfold cppSummary
      rw [htime]
      rfl
    rw [hs, htime]

/-- C10 at `sleepwaste soon " -lots"` with every allocation refused. -/
theorem c10_unparsable_is_zero_witness :
    (atoi "soon" = 0 ∧ atoi " -lots" = 0 ∧ atol " -lots" = 0) ∧
    C.bytes " -lots" = 0 ∧ Cpp.mem " -lots" = 0 ∧
    C.main exhausted (0 + 1) ["sleepwaste", "soon", " -lots"] = some
      ⟨[Event.alloc 0 (exhausted.allocOk 0), Event.sleep 0, Event.free,
        Event.stdout "slept for 0 s and 0 MB\n"], Outcome.exit 0⟩ ∧
    Cpp.main exhausted ["sleepwaste", "soon", " -lots"] =
      ⟨[Event.sleep 0, Event.stdout ("slept for 0 s and wasted " ++ " -lots" ++ " MB\n")],
        Outcome.exit 0⟩ :=
  c10_unparsable_is_zero exhausted "sleepwaste" "soon" " -lots" 0 (by decide) (by decide)

end Sleepwaste
